import Mathlib

/-!
# Verification of the monthly-report aggregation job

Shallow embedding of `supabase/functions/send-monthly-report/index.ts`:
the reporting-window computation (JS `Date` construction and the date part
of `toISOString`), the per-tenant metric aggregation (counts, completed
revenue, distinct customers, top-5 service ranking), the completion-rate
rendering of the report template, and the top-level handler control flow
(sequential tenant loop with per-tenant error isolation, HTTP response
shape).

Numbers: JS numeric values are modelled as rationals (`ℚ`), with
`Option ℚ` where `NaN` matters (`none` = NaN).  Machine-float rounding is
abstracted; all claim-relevant arithmetic (integer counts, small
quotients, decimal rendering) is exact in this range.

Dates: `new Date(y, m, d)` is local-calendar construction (ECMA-262
MakeDay): the month index is normalised into `[0, 11]` carrying into the
year, and `d` is an offset from day 1 of that month.  `toISOString`
renders the instant in UTC; the instant of a local midnight is
`days * 1440 + tzOffset` minutes, where `tzOffset` is
`Date.prototype.getTimezoneOffset` (UTC − local, in minutes).
Civil-date ↔ epoch-day conversions follow the proleptic-Gregorian
algorithms (Hinnant's `days_from_civil` / `civil_from_days`), which is
the ECMAScript date model.
-/

namespace MonthlyReport

def isLeap (y : Int) : Bool :=
  (y % 4 == 0 && y % 100 != 0) || y % 400 == 0

def daysInMonth (y m : Int) : Int :=
  if m = 2 then (if isLeap y then 29 else 28)
  else if m = 4 ∨ m = 6 ∨ m = 9 ∨ m = 11 then 30
  else 31

def daysFromCivil (y m d : Int) : Int :=
  let yAdj := if m ≤ 2 then y - 1 else y
  let era := yAdj / 400
  let yoe := yAdj - era * 400
  let mp := if m > 2 then m - 3 else m + 9
  let doy := (153 * mp + 2) / 5 + (d - 1)
  let doe := yoe * 365 + yoe / 4 - yoe / 100 + doy
  era * 146097 + doe - 719468

def civilFromDays (z : Int) : Int × Int × Int :=
  let z2 := z + 719468
  let era := z2 / 146097
  let doe := z2 - era * 146097
  let yoe := (doe - doe / 1460 + doe / 36524 - doe / 146096) / 365
  let y := yoe + era * 400
  let doy := doe - (365 * yoe + yoe / 4 - yoe / 100)
  let mp := (5 * doy + 2) / 153
  let d := doy - (153 * mp + 2) / 5 + 1
  let m := if mp < 10 then mp + 3 else mp - 9
  (if m ≤ 2 then y + 1 else y, m, d)

def jsMakeDay (y m d : Int) : Int :=
  let ym := y * 12 + m
  daysFromCivil (ym / 12) (ym % 12 + 1) d

def utcDayOfLocalMidnight (days tz : Int) : Int :=
  (days * 1440 + tz) / 1440

def pad2 (n : Int) : String :=
  if n < 10 then "0" ++ toString n else toString n

def renderISO : Int × Int × Int → String
  | (y, m, d) => toString y ++ "-" ++ pad2 m ++ "-" ++ pad2 d

def isoDateString (days tz : Int) : String :=
  renderISO (civilFromDays (utcDayOfLocalMidnight days tz))

def reportWindow (y m0 tz : Int) : String × String :=
  (isoDateString (jsMakeDay y (m0 - 1) 1) tz,
   isoDateString (jsMakeDay y m0 0) tz)

def prevMonth (y m0 : Int) : Int × Int :=
  if m0 = 0 then (y - 1, 12) else (y, m0)

def specWindow (y m0 : Int) : String × String :=
  let p := prevMonth y m0
  (renderISO (p.1, p.2, 1), renderISO (p.1, p.2, daysInMonth p.1 p.2))

/-- A JSON scalar as it can arrive in the `final_price` column: a number or
a string. -/
inductive JVal
  | num (q : ℚ)
  | str (s : String)
deriving DecidableEq

/-- One row of the record query
`select("id, status, final_price, service_id, customer_id, services(name)")`;
`service_name` is `services?.name` from the join, `none` when the join or the
name is null. -/
structure Appointment where
  id : String
  status : String
  final_price : Option JVal
  service_id : Option String
  customer_id : Option String
  service_name : Option String
deriving DecidableEq

/-- JS truthiness on a nullable string: `null`/`undefined` and `""` are
falsy. -/
def truthyStr : Option String → Option String
  | some s => if s = "" then none else some s
  | none => none

/-- `v || dflt` for a nullable string `v`. -/
def jsOrString (v : Option String) (dflt : String) : String :=
  match v with
  | some s => if s = "" then dflt else s
  | none => dflt

def parseDigits : List Char → List Nat × List Char
  | [] => ([], [])
  | ch :: rest =>
    if '0' ≤ ch ∧ ch ≤ '9' then
      let p := parseDigits rest
      ((ch.toNat - 48) :: p.1, p.2)
    else ([], ch :: rest)

def parseSign : List Char → Int × List Char
  | '+' :: r => (1, r)
  | '-' :: r => (-1, r)
  | cs => (1, cs)

def digitsVal (l : List Nat) : Nat := l.foldl (fun a d => 10 * a + d) 0

def fracVal (l : List Nat) : ℚ := l.foldr (fun d a => ((d : ℚ) + a) / 10) 0

def parseExp (cs : List Char) : Int :=
  let sg := parseSign cs
  let ds := parseDigits sg.2
  if ds.1.isEmpty then 0 else sg.1 * digitsVal ds.1

/-- JS `parseFloat`: longest decimal-literal prefix after optional leading
whitespace and sign; `none` models NaN.  (The `Infinity` literal and hex
forms are not modelled; a monetary field never takes those shapes.) -/
def jsParseFloat (s : String) : Option ℚ :=
  let cs := s.data.dropWhile Char.isWhitespace
  let sg := parseSign cs
  let ip := parseDigits sg.2
  let fp : List Nat × List Char :=
    match ip.2 with
    | '.' :: r => parseDigits r
    | _ => ([], ip.2)
  if ip.1.isEmpty ∧ fp.1.isEmpty then none
  else
    let e : Int :=
      match fp.2 with
      | ch :: r => if ch = 'e' ∨ ch = 'E' then parseExp r else 0
      | [] => 0
    some ((sg.1 : ℚ) * ((digitsVal ip.1 : ℚ) + fracVal fp.1) * 10 ^ e)

/-- `parseFloat(a.final_price?.toString() || "0")`.  A missing value gives
`"0"`; an empty string is falsy and also gives `"0"`; a finite JS number
round-trips through `toString`/`parseFloat` unchanged; `none` models NaN. -/
def amountValue : Option JVal → Option ℚ
  | none => some 0
  | some (JVal.num q) => some q
  | some (JVal.str s) => if s = "" then some 0 else jsParseFloat s

/-- JS `+` with NaN propagation (`none` = NaN). -/
def jsAdd (a b : Option ℚ) : Option ℚ :=
  match a, b with
  | some x, some y => some (x + y)
  | _, _ => none

/-- `appointments.filter(a => a.status === "completed")
      .reduce((sum, a) => sum + parseFloat(a.final_price?.toString() || "0"), 0) || 0`;
the trailing `|| 0` maps both an NaN sum and a zero sum to `0`. -/
def totalRevenue (rs : List Appointment) : ℚ :=
  match (rs.filter (fun a => a.status == "completed")).foldl
      (fun acc a => jsAdd acc (amountValue a.final_price)) (some 0) with
  | none => 0
  | some v => v

def completedCount (rs : List Appointment) : Nat :=
  (rs.filter (fun a => a.status == "completed")).length

def cancelledCount (rs : List Appointment) : Nat :=
  (rs.filter (fun a => a.status == "cancelled")).length

/-- Keep the first occurrence of every element (the iteration order of a JS
`Set`/`Map` built by insertion). -/
def firstDedupAux (seen : List String) : List String → List String
  | [] => []
  | a :: rest =>
    if a ∈ seen then firstDedupAux seen rest
    else a :: firstDedupAux (a :: seen) rest

def firstDedup (l : List String) : List String := firstDedupAux [] l

/-- `new Set(appointments.map(a => a.customer_id).filter(Boolean)).size`. -/
def newCustomers (rs : List Appointment) : Nat :=
  (firstDedup ((rs.map (fun a => a.customer_id)).filterMap truthyStr)).length

/-- `serviceCounts.set(name, (serviceCounts.get(name) || 0) + 1)`: a JS `Map`
update keeps an existing key in place and appends a new key at the end. -/
def bump : List (String × Nat) → String → List (String × Nat)
  | [], name => [(name, 1)]
  | (k, v) :: rest, name =>
    if k = name then (k, v + 1) :: rest else (k, v) :: bump rest name

/-- The `serviceCounts` map in its insertion (first-encounter) order, built
by the `appointments.forEach` loop guarded by `if (a.services?.name)`. -/
def serviceCounts (rs : List Appointment) : List (String × Nat) :=
  rs.foldl
    (fun m a =>
      match truthyStr a.service_name with
      | some s => bump m s
      | none => m) []

/-- The comparator `(a, b) => b.count - a.count`: `a` precedes `b` when
`b.count ≤ a.count`. -/
def rankLE (a b : String × Nat) : Prop := b.2 ≤ a.2

instance : DecidableRel rankLE := fun a b => inferInstanceAs (Decidable (b.2 ≤ a.2))

instance : IsTotal (String × Nat) rankLE := ⟨fun a b => le_total b.2 a.2⟩

instance : IsTrans (String × Nat) rankLE :=
  ⟨fun _ _ _ h1 h2 => le_trans h2 h1⟩

/-- `Array.from(serviceCounts.entries()).sort((a, b) => b.count - a.count)`:
`Array.prototype.sort` is stable (ES2019), modelled by a stable insertion
sort over the insertion-ordered entry list. -/
def rankedServices (rs : List Appointment) : List (String × Nat) :=
  List.insertionSort rankLE (serviceCounts rs)

/-- `.slice(0, 5)` of the ranked entries. -/
def topServices (rs : List Appointment) : List (String × Nat) :=
  (rankedServices rs).take 5

/-- A row of the tenant query
`select("id, name, email, owner_id, currency").eq("is_active", true)`. -/
structure Business where
  id : String
  name : String
  email : Option String
  owner_id : String
  currency : Option String
deriving DecidableEq

structure MonthlyReportData where
  businessId : String
  businessName : String
  ownerEmail : String
  totalAppointments : Nat
  completedAppointments : Nat
  cancelledAppointments : Nat
  totalRevenue : ℚ
  newCustomers : Nat
  topServices : List (String × Nat)
  currency : String
deriving DecidableEq

/-- The `reportData` object assembled per tenant (`index.ts` lines 64–99). -/
def buildReport (b : Business) (appts : List Appointment) : MonthlyReportData :=
  { businessId := b.id
    businessName := b.name
    ownerEmail := jsOrString b.email ""
    totalAppointments := appts.length
    completedAppointments := completedCount appts
    cancelledAppointments := cancelledCount appts
    totalRevenue := totalRevenue appts
    newCustomers := newCustomers appts
    topServices := topServices appts
    currency := jsOrString b.currency "NGN" }

/-- The environment of one run: the tenant-list query result, the per-tenant
record query, the email collaborator, and the invocation clock
(`getFullYear()`, `getMonth()`, `getTimezoneOffset()`). -/
structure Env where
  businessesData : Option (List Business)
  businessesError : Option String
  fetchAppointments : String → String → String → Except String (List Appointment)
  sendEmail : MonthlyReportData → Except String Unit
  nowYear : Int
  nowMonth : Int
  tzOffset : Int

/-- One iteration of the tenant loop (`index.ts` lines 49–109), given only
this tenant's own fetch result and the shared email collaborator: on fetch
error, `continue` after logging (flag `true`); otherwise build the report and
dispatch exactly when `totalAppointments > 0 && reportData.ownerEmail`; a
dispatch failure is caught at the iteration boundary (flag `true`).  Returns
the dispatch attempts and whether an error was logged. -/
def processTenant (fetched : Except String (List Appointment))
    (send : MonthlyReportData → Except String Unit) (b : Business) :
    List MonthlyReportData × Bool :=
  match fetched with
  | Except.error _ => ([], true)
  | Except.ok appts =>
    let rd := buildReport b appts
    if 0 < appts.length ∧ rd.ownerEmail ≠ "" then
      match send rd with
      | Except.ok _ => ([rd], false)
      | Except.error _ => ([rd], true)
    else ([], false)

def processBusiness (env : Env) (b : Business) : List MonthlyReportData × Bool :=
  processTenant
    (env.fetchAppointments b.id
      (reportWindow env.nowYear env.nowMonth env.tzOffset).1
      (reportWindow env.nowYear env.nowMonth env.tzOffset).2)
    env.sendEmail b

inductive RespBody
  | success (message : String)
  | error (message : String)
deriving DecidableEq

structure RunResult where
  status : Nat
  body : RespBody
  sent : List MonthlyReportData
deriving DecidableEq

/-- The HTTP handler (`index.ts` lines 27–122): throw on tenant-list error
(caught as a 500 `{ error }` response before any tenant is processed),
otherwise run the tenant loop sequentially and answer 200
`{ success, message }`. -/
def handler (env : Env) : RunResult :=
  match env.businessesError with
  | some e => ⟨500, RespBody.error e, []⟩
  | none =>
    ⟨200, RespBody.success "Monthly reports sent successfully",
      (env.businessesData.getD []).foldl
        (fun acc b => acc ++ (processBusiness env b).1) []⟩

/-- `toFixed(1)`: the integer `n` with `n/10` closest to `x`, ties toward
the larger `n`, rendered with one decimal digit. -/
def toFixed1 (x : ℚ) : String :=
  let n : Int := ⌊x * 10 + 1 / 2⌋
  toString (n / 10) ++ "." ++ toString (n % 10).natAbs

/-- The completion rate string of `sendMonthlyReport`
(`index.ts` lines 130–132). -/
def completionRate (data : MonthlyReportData) : String :=
  if 0 < data.totalAppointments then
    toFixed1 ((data.completedAppointments : ℚ) / (data.totalAppointments : ℚ) * 100)
  else "0"

/-- Lookup in the association list (`serviceCounts.get(name) || 0`). -/
def getCount : List (String × Nat) → String → Nat
  | [], _ => 0
  | (k, v) :: rest, x => if k = x then v else getCount rest x

/-- One decimal digit rendering of a tenth-integer. -/
def renderTenths (n : Int) : String :=
  toString (n / 10) ++ "." ++ toString (n % 10).natAbs

/-- Modelled from the spec: sum over completed records of the numeric
coercion of the amount, a missing or non-numeric amount contributing zero. -/
def specRevenue (rs : List Appointment) : ℚ :=
  ((rs.filter (fun a => a.status == "completed")).map
    (fun a => (amountValue a.final_price).getD 0)).sum

/-- Modelled from the spec: the number of distinct customer references after
excluding only the null/missing ones. -/
def specCustomerCount (rs : List Appointment) : Nat :=
  (firstDedup (rs.filterMap (fun a => a.customer_id))).length

def wBusinessX : Business := ⟨"bX", "X Salon", some "x@example.com", "oX", some "USD"⟩

def wBusinessY : Business := ⟨"bY", "Y Salon", some "y@example.com", "oY", none⟩

def wAppt : Appointment :=
  ⟨"a1", "completed", some (JVal.num 50), some "s1", some "c1", some "Haircut"⟩

def wEnv : Env :=
  { businessesData := some [wBusinessX, wBusinessY]
    businessesError := none
    fetchAppointments := fun id _ _ =>
      if id = "bX" then Except.error "connection reset" else Except.ok [wAppt]
    sendEmail := fun _ => Except.ok ()
    nowYear := 2025
    nowMonth := 2
    tzOffset := 0 }

def wEnvErr : Env :=
  { businessesData := none
    businessesError := some "db down"
    fetchAppointments := fun _ _ _ => Except.ok []
    sendEmail := fun _ => Except.ok ()
    nowYear := 2025
    nowMonth := 2
    tzOffset := 0 }

def wServiceRecords : List Appointment :=
  ["B", "C", "A", "D", "B", "C", "A", "B", "C", "A", "B", "C", "B", "C"].map
    (fun s => ⟨s, "completed", none, none, none, some s⟩)

def wRevenueRecords : List Appointment :=
  [⟨"a1", "completed", some (JVal.num 10), none, none, none⟩,
   ⟨"a2", "cancelled", some (JVal.num 999), none, none, none⟩]

def wBadPriceRecords : List Appointment :=
  [⟨"a1", "completed", some (JVal.num 10), none, none, none⟩,
   ⟨"a2", "completed", some (JVal.str "abc"), none, none, none⟩]

def wReport : MonthlyReportData :=
  ⟨"bY", "Y Salon", "y@example.com", 4, 3, 1, 0, 0, [], "NGN"⟩

def wEmptyCustomerRecords : List Appointment :=
  [⟨"a1", "pending", none, none, some "", none⟩]

def wCustomerRecords : List Appointment :=
  [⟨"a1", "completed", none, none, some "c1", none⟩,
   ⟨"a2", "completed", none, none, some "c1", none⟩,
   ⟨"a3", "completed", none, none, some "c2", none⟩,
   ⟨"a4", "completed", none, none, none, none⟩,
   ⟨"a5", "completed", none, none, some "", none⟩]

/-- Quotient of an explicit euclidean decomposition. -/
theorem ediv_eq_q (D b q r : Int) (hD : D = r + q * b) (h0 : 0 ≤ r) (h1 : r < b) :
    D / b = q := by
  subst hD
  rw [Int.add_mul_ediv_right r q (by omega : b ≠ 0),
    Int.ediv_eq_zero_of_lt h0 h1, zero_add]

/-- Splitting an integer into 400-year era and century/quadrennium/remainder
of the year of era. -/
theorem era_decomp (A : Int) :
    ∃ era c s t, (0 ≤ c ∧ c ≤ 3) ∧ (0 ≤ s ∧ s ≤ 24) ∧ (0 ≤ t ∧ t ≤ 3) ∧
      A = 400 * era + (100 * c + 4 * s + t) := by
  refine ⟨A / 400, A % 400 / 100, A % 400 % 100 / 4, A % 400 % 100 % 4,
    ⟨?_, ?_⟩, ⟨?_, ?_⟩, ⟨?_, ?_⟩, ?_⟩ <;> omega

/-- The year-of-era is recovered from the day-of-era by Hinnant's formula. -/
theorem doe_recover (c s t doy N : Int)
    (hc : 0 ≤ c ∧ c ≤ 3) (hs : 0 ≤ s ∧ s ≤ 24) (ht : 0 ≤ t ∧ t ≤ 3)
    (hdoy : 0 ≤ doy)
    (hleap : doy ≤ 364 ∨ (doy = 365 ∧ t = 3 ∧ (s ≠ 24 ∨ c = 3)))
    (hN : N = 36524 * c + 1461 * s + 365 * t + doy) :
    (N - N / 1460 + N / 36524 - N / 146096) / 365 = 100 * c + 4 * s + t := by
  by_cases hend : N = 146096
  · have hcst : c = 3 ∧ s = 24 ∧ t = 3 ∧ doy = 365 := by omega
    obtain ⟨rfl, rfl, rfl, rfl⟩ := hcst
    rw [hend]
    decide
  · have hr3 : N / 146096 = 0 := ediv_eq_q N 146096 0 N (by ring) (by omega) (by omega)
    have hr2 : N / 36524 = c :=
      ediv_eq_q N 36524 c (1461 * s + 365 * t + doy) (by rw [hN]; ring) (by omega) (by omega)
    by_cases hf : 1460 ≤ 24 * c + s + 365 * t + doy
    · have hr1 : N / 1460 = 25 * c + s + 1 :=
        ediv_eq_q N 1460 (25 * c + s + 1) (24 * c + s + 365 * t + doy - 1460)
          (by rw [hN]; ring) (by omega) (by omega)
      rw [hr1, hr2, hr3]
      exact ediv_eq_q _ 365 (100 * c + 4 * s + t) (doy - 1) (by rw [hN]; ring)
        (by omega) (by omega)
    · have hr1 : N / 1460 = 25 * c + s :=
        ediv_eq_q N 1460 (25 * c + s) (24 * c + s + 365 * t + doy)
          (by rw [hN]; ring) (by omega) (by omega)
      rw [hr1, hr2, hr3]
      exact ediv_eq_q _ 365 (100 * c + 4 * s + t) doy (by rw [hN]; ring)
        (by omega) (by omega)

/-- Evaluating `civilFromDays` on a day count in era/year-of-era/day-of-year
form. -/
theorem civilFromDays_eval (era c s t mp doy : Int)
    (hc : 0 ≤ c ∧ c ≤ 3) (hs : 0 ≤ s ∧ s ≤ 24) (ht : 0 ≤ t ∧ t ≤ 3)
    (hdoy : 0 ≤ doy)
    (hmp : 153 * mp ≤ 5 * doy + 2 ∧ 5 * doy + 2 < 153 * mp + 153)
    (hleap : doy ≤ 364 ∨ (doy = 365 ∧ t = 3 ∧ (s ≠ 24 ∨ c = 3))) :
    civilFromDays (146097 * era + (36524 * c + 1461 * s + 365 * t + doy) - 719468)
      = (if (if mp < 10 then mp + 3 else mp - 9) ≤ 2
           then 100 * c + 4 * s + t + era * 400 + 1
           else 100 * c + 4 * s + t + era * 400,
         if mp < 10 then mp + 3 else mp - 9,
         doy - (153 * mp + 2) / 5 + 1) := by
  simp only [civilFromDays]
  have hz : 146097 * era + (36524 * c + 1461 * s + 365 * t + doy) - 719468 + 719468
      = 146097 * era + (36524 * c + 1461 * s + 365 * t + doy) := by ring
  rw [hz]
  set N := 36524 * c + 1461 * s + 365 * t + doy with hN
  have hera : (146097 * era + N) / 146097 = era :=
    ediv_eq_q _ 146097 era N (by ring) (by omega) (by omega)
  rw [hera]
  have hdoe : 146097 * era + N - era * 146097 = N := by ring
  rw [hdoe]
  have hyoe : (N - N / 1460 + N / 36524 - N / 146096) / 365
      = 100 * c + 4 * s + t :=
    doe_recover c s t doy N hc hs ht hdoy hleap hN
  rw [hyoe]
  have hq4 : (100 * c + 4 * s + t) / 4 = 25 * c + s :=
    ediv_eq_q _ 4 (25 * c + s) t (by ring) (by omega) (by omega)
  have hq100 : (100 * c + 4 * s + t) / 100 = c :=
    ediv_eq_q _ 100 c (4 * s + t) (by ring) (by omega) (by omega)
  rw [hq4, hq100]
  have hdoy2 : N - (365 * (100 * c + 4 * s + t) + (25 * c + s) - c) = doy := by
    rw [hN]; ring
  rw [hdoy2]
  have hmp2 : (5 * doy + 2) / 153 = mp :=
    ediv_eq_q _ 153 mp (5 * doy + 2 - 153 * mp) (by ring) (by omega) (by omega)
  rw [hmp2]

theorem daysInMonth_pos (y m : Int) : 1 ≤ daysInMonth y m := by
  unfold daysInMonth
  split
  · split <;> norm_num
  · split <;> norm_num

/-- The leap test as an arithmetic proposition. -/
theorem isLeap_iff (y : Int) :
    isLeap y = true ↔ ((y % 4 = 0 ∧ y % 100 ≠ 0) ∨ y % 400 = 0) := by
  simp [isLeap]

/-- Month-length bounds in arithmetic form. -/
theorem daysInMonth_le (y m d : Int) (h : d ≤ daysInMonth y m) :
    (m = 2 → (((y % 4 = 0 ∧ y % 100 ≠ 0) ∨ y % 400 = 0) ∧ d ≤ 29)
        ∨ (¬((y % 4 = 0 ∧ y % 100 ≠ 0) ∨ y % 400 = 0) ∧ d ≤ 28))
    ∧ ((m = 4 ∨ m = 6 ∨ m = 9 ∨ m = 11) → d ≤ 30)
    ∧ d ≤ 31 := by
  unfold daysInMonth at h
  split_ifs at h with h1 h2 h3
  · exact ⟨fun _ => Or.inl ⟨(isLeap_iff y).mp h2, h⟩, fun hm => by omega, by omega⟩
  · refine ⟨fun _ => Or.inr ⟨?_, h⟩, fun hm => by omega, by omega⟩
    intro hcon
    exact absurd ((isLeap_iff y).mpr hcon) (by simpa using h2)
  · exact ⟨fun hm => absurd hm h1, fun _ => h, by omega⟩
  · exact ⟨fun hm => absurd hm h1, fun hm => absurd hm h3, h⟩

/-- `daysFromCivil` in era/year-of-era canonical form. -/
theorem daysFromCivil_canon (y m d yA mp era c s t : Int)
    (hadj : (if m ≤ 2 then y - 1 else y) = yA)
    (hmpE : (if m > 2 then m - 3 else m + 9) = mp)
    (hA : yA = 400 * era + (100 * c + 4 * s + t))
    (hc : 0 ≤ c ∧ c ≤ 3) (hs : 0 ≤ s ∧ s ≤ 24) (ht : 0 ≤ t ∧ t ≤ 3) :
    daysFromCivil y m d
      = 146097 * era + (36524 * c + 1461 * s + 365 * t + ((153 * mp + 2) / 5 + (d - 1)))
        - 719468 := by
  simp only [daysFromCivil]
  rw [hadj, hmpE]
  have h400 : yA / 400 = era :=
    ediv_eq_q _ 400 era (100 * c + 4 * s + t) (by omega) (by omega) (by omega)
  rw [h400]
  have hyoe : yA - era * 400 = 100 * c + 4 * s + t := by omega
  rw [hyoe]
  have hq4 : (100 * c + 4 * s + t) / 4 = 25 * c + s :=
    ediv_eq_q _ 4 (25 * c + s) t (by ring) (by omega) (by omega)
  have hq100 : (100 * c + 4 * s + t) / 100 = c :=
    ediv_eq_q _ 100 c (4 * s + t) (by ring) (by omega) (by omega)
  rw [hq4, hq100]
  ring

/-- Round trip: a valid civil date survives conversion to epoch days and
back. -/
theorem civilFromDays_daysFromCivil (y m d : Int)
    (hm1 : 1 ≤ m) (hm2 : m ≤ 12) (hd1 : 1 ≤ d) (hd2 : d ≤ daysInMonth y m) :
    civilFromDays (daysFromCivil y m d) = (y, m, d) := by
  obtain ⟨hfeb, h30, h31⟩ := daysInMonth_le y m d hd2
  obtain ⟨era, c, s, t, hc, hs, ht, hA⟩ := era_decomp (if m ≤ 2 then y - 1 else y)
  have hM12 : m = 1 ∨ m = 2 ∨ m = 3 ∨ m = 4 ∨ m = 5 ∨ m = 6 ∨ m = 7 ∨ m = 8 ∨
      m = 9 ∨ m = 10 ∨ m = 11 ∨ m = 12 := by omega
  rcases hM12 with rfl | rfl | rfl | rfl | rfl | rfl | rfl | rfl | rfl | rfl | rfl | rfl
  · norm_num at hA
    rw [daysFromCivil_canon y 1 d (y - 1) 10 era c s t (by norm_num) (by norm_num) hA hc hs ht,
      civilFromDays_eval era c s t 10 ((153 * 10 + 2) / 5 + (d - 1)) hc hs ht
        (by omega) (by omega) (by omega)]
    norm_num [Prod.mk.injEq]
    omega
  · replace hfeb := hfeb rfl
    norm_num at hA
    rw [daysFromCivil_canon y 2 d (y - 1) 11 era c s t (by norm_num) (by norm_num) hA hc hs ht,
      civilFromDays_eval era c s t 11 ((153 * 11 + 2) / 5 + (d - 1)) hc hs ht
        (by omega) (by omega) ?hlp]
    case hlp =>
      rcases hfeb with ⟨hLy, hd29⟩ | ⟨hLn, hd28⟩
      · by_cases hd : d = 29
        · right
          refine ⟨by omega, by omega, by omega⟩
        · left; omega
      · left; omega
    norm_num [Prod.mk.injEq]
    omega
  · norm_num at hA
    rw [daysFromCivil_canon y 3 d y 0 era c s t (by norm_num) (by norm_num) hA hc hs ht,
      civilFromDays_eval era c s t 0 ((153 * 0 + 2) / 5 + (d - 1)) hc hs ht
        (by omega) (by omega) (by omega)]
    norm_num [Prod.mk.injEq]
    omega
  · replace h30 := h30 (by norm_num)
    norm_num at hA
    rw [daysFromCivil_canon y 4 d y 1 era c s t (by norm_num) (by norm_num) hA hc hs ht,
      civilFromDays_eval era c s t 1 ((153 * 1 + 2) / 5 + (d - 1)) hc hs ht
        (by omega) (by omega) (by omega)]
    norm_num [Prod.mk.injEq]
    omega
  · norm_num at hA
    rw [daysFromCivil_canon y 5 d y 2 era c s t (by norm_num) (by norm_num) hA hc hs ht,
      civilFromDays_eval era c s t 2 ((153 * 2 + 2) / 5 + (d - 1)) hc hs ht
        (by omega) (by omega) (by omega)]
    norm_num [Prod.mk.injEq]
    omega
  · replace h30 := h30 (by norm_num)
    norm_num at hA
    rw [daysFromCivil_canon y 6 d y 3 era c s t (by norm_num) (by norm_num) hA hc hs ht,
      civilFromDays_eval era c s t 3 ((153 * 3 + 2) / 5 + (d - 1)) hc hs ht
        (by omega) (by omega) (by omega)]
    norm_num [Prod.mk.injEq]
    omega
  · norm_num at hA
    rw [daysFromCivil_canon y 7 d y 4 era c s t (by norm_num) (by norm_num) hA hc hs ht,
      civilFromDays_eval era c s t 4 ((153 * 4 + 2) / 5 + (d - 1)) hc hs ht
        (by omega) (by omega) (by omega)]
    norm_num [Prod.mk.injEq]
    omega
  · norm_num at hA
    rw [daysFromCivil_canon y 8 d y 5 era c s t (by norm_num) (by norm_num) hA hc hs ht,
      civilFromDays_eval era c s t 5 ((153 * 5 + 2) / 5 + (d - 1)) hc hs ht
        (by omega) (by omega) (by omega)]
    norm_num [Prod.mk.injEq]
    omega
  · replace h30 := h30 (by norm_num)
    norm_num at hA
    rw [daysFromCivil_canon y 9 d y 6 era c s t (by norm_num) (by norm_num) hA hc hs ht,
      civilFromDays_eval era c s t 6 ((153 * 6 + 2) / 5 + (d - 1)) hc hs ht
        (by omega) (by omega) (by omega)]
    norm_num [Prod.mk.injEq]
    omega
  · norm_num at hA
    rw [daysFromCivil_canon y 10 d y 7 era c s t (by norm_num) (by norm_num) hA hc hs ht,
      civilFromDays_eval era c s t 7 ((153 * 7 + 2) / 5 + (d - 1)) hc hs ht
        (by omega) (by omega) (by omega)]
    norm_num [Prod.mk.injEq]
    omega
  · replace h30 := h30 (by norm_num)
    norm_num at hA
    rw [daysFromCivil_canon y 11 d y 8 era c s t (by norm_num) (by norm_num) hA hc hs ht,
      civilFromDays_eval era c s t 8 ((153 * 8 + 2) / 5 + (d - 1)) hc hs ht
        (by omega) (by omega) (by omega)]
    norm_num [Prod.mk.injEq]
    omega
  · norm_num at hA
    rw [daysFromCivil_canon y 12 d y 9 era c s t (by norm_num) (by norm_num) hA hc hs ht,
      civilFromDays_eval era c s t 9 ((153 * 9 + 2) / 5 + (d - 1)) hc hs ht
        (by omega) (by omega) (by omega)]
    norm_num [Prod.mk.injEq]
    omega

/-- February length in arithmetic form. -/
theorem daysInMonth_two (y : Int) :
    daysInMonth y 2 = if (y % 4 = 0 ∧ y % 100 ≠ 0) ∨ y % 400 = 0 then 29 else 28 := by
  have hiff := isLeap_iff y
  simp only [daysInMonth]
  norm_num
  split_ifs with h1 h2 <;> simp_all

/-- Day zero of month `m ≥ 2` is the last day of month `m - 1`. -/
theorem daysFromCivil_day_zero (y m : Int) (hm1 : 2 ≤ m) (hm2 : m ≤ 12) :
    daysFromCivil y m 0 = daysFromCivil y (m - 1) (daysInMonth y (m - 1)) := by
  have hM : m = 2 ∨ m = 3 ∨ m = 4 ∨ m = 5 ∨ m = 6 ∨ m = 7 ∨ m = 8 ∨
      m = 9 ∨ m = 10 ∨ m = 11 ∨ m = 12 := by omega
  rcases hM with rfl | rfl | rfl | rfl | rfl | rfl | rfl | rfl | rfl | rfl | rfl
  · simp only [daysFromCivil, daysInMonth]
    norm_num
  · obtain ⟨eraL, cL, sL, tL, hcL, hsL, htL, hAL⟩ := era_decomp y
    obtain ⟨eraR, cR, sR, tR, hcR, hsR, htR, hAR⟩ := era_decomp (y - 1)
    rw [daysFromCivil_canon y 3 0 y 0 eraL cL sL tL (by norm_num) (by norm_num) hAL hcL hsL htL]
    norm_num
    rw [daysInMonth_two y]
    by_cases hLy : (y % 4 = 0 ∧ y % 100 ≠ 0) ∨ y % 400 = 0
    · rw [if_pos hLy,
        daysFromCivil_canon y 2 29 (y - 1) 11 eraR cR sR tR (by norm_num) (by norm_num)
          hAR hcR hsR htR]
      omega
    · rw [if_neg hLy,
        daysFromCivil_canon y 2 28 (y - 1) 11 eraR cR sR tR (by norm_num) (by norm_num)
          hAR hcR hsR htR]
      omega
  · simp only [daysFromCivil, daysInMonth]
    norm_num
  · simp only [daysFromCivil, daysInMonth]
    norm_num
  · simp only [daysFromCivil, daysInMonth]
    norm_num
  · simp only [daysFromCivil, daysInMonth]
    norm_num
  · simp only [daysFromCivil, daysInMonth]
    norm_num
  · simp only [daysFromCivil, daysInMonth]
    norm_num
  · simp only [daysFromCivil, daysInMonth]
    norm_num
  · simp only [daysFromCivil, daysInMonth]
    norm_num
  · simp only [daysFromCivil, daysInMonth]
    norm_num

/-- Day zero of January is December 31 of the preceding year. -/
theorem daysFromCivil_jan_zero (y : Int) :
    daysFromCivil y 1 0 = daysFromCivil (y - 1) 12 (daysInMonth (y - 1) 12) := by
  simp only [daysFromCivil, daysInMonth]
  norm_num

theorem jsMakeDay_eq (y m0 d : Int) (h0 : 0 ≤ m0) (h1 : m0 ≤ 11) :
    jsMakeDay y m0 d = daysFromCivil y (m0 + 1) d := by
  simp only [jsMakeDay]
  have hdiv : (y * 12 + m0) / 12 = y := ediv_eq_q _ 12 y m0 (by ring) h0 (by omega)
  have hmod : (y * 12 + m0) % 12 = m0 := by omega
  rw [hdiv, hmod]

theorem jsMakeDay_neg_one (y d : Int) :
    jsMakeDay y (-1) d = daysFromCivil (y - 1) 12 d := by
  simp only [jsMakeDay]
  have hdiv : (y * 12 + -1) / 12 = y - 1 :=
    ediv_eq_q _ 12 (y - 1) 11 (by ring) (by norm_num) (by norm_num)
  have hmod : (y * 12 + -1) % 12 = 11 := by omega
  rw [hdiv, hmod]
  norm_num

theorem utcDay_id (D tz : Int) (h0 : 0 ≤ tz) (h1 : tz < 1440) :
    utcDayOfLocalMidnight D tz = D := by
  unfold utcDayOfLocalMidnight
  exact ediv_eq_q _ 1440 D tz (by ring) h0 h1

/-- With a nonnegative timezone offset (local time at or behind UTC), the
query window is exactly the previous local calendar month. -/
theorem reportWindow_eq (y m0 tz : Int) (hm0 : 0 ≤ m0) (hm1 : m0 ≤ 11)
    (htz0 : 0 ≤ tz) (htz1 : tz < 1440) :
    reportWindow y m0 tz = specWindow y m0 := by
  by_cases h0 : m0 = 0
  · subst h0
    have hfd1 : jsMakeDay y (0 - 1) 1 = daysFromCivil (y - 1) 12 1 := by
      norm_num [jsMakeDay_neg_one]
    have hfd2 : jsMakeDay y 0 0 = daysFromCivil (y - 1) 12 (daysInMonth (y - 1) 12) := by
      rw [jsMakeDay_eq y 0 0 (by norm_num) (by norm_num)]
      norm_num [daysFromCivil_jan_zero]
    unfold reportWindow isoDateString
    rw [hfd1, hfd2, utcDay_id _ tz htz0 htz1, utcDay_id _ tz htz0 htz1,
      civilFromDays_daysFromCivil (y - 1) 12 1 (by norm_num) (by norm_num) (by norm_num)
        (daysInMonth_pos (y - 1) 12),
      civilFromDays_daysFromCivil (y - 1) 12 (daysInMonth (y - 1) 12) (by norm_num)
        (by norm_num) (daysInMonth_pos (y - 1) 12) le_rfl]
    simp [specWindow, prevMonth]
  · have hfd1 : jsMakeDay y (m0 - 1) 1 = daysFromCivil y m0 1 := by
      rw [jsMakeDay_eq y (m0 - 1) 1 (by omega) (by omega)]
      norm_num
    have hfd2 : jsMakeDay y m0 0 = daysFromCivil y m0 (daysInMonth y m0) := by
      rw [jsMakeDay_eq y m0 0 (by omega) (by omega),
        daysFromCivil_day_zero y (m0 + 1) (by omega) (by omega)]
      norm_num
    unfold reportWindow isoDateString
    rw [hfd1, hfd2, utcDay_id _ tz htz0 htz1, utcDay_id _ tz htz0 htz1,
      civilFromDays_daysFromCivil y m0 1 (by omega) (by omega) (by norm_num)
        (daysInMonth_pos y m0),
      civilFromDays_daysFromCivil y m0 (daysInMonth y m0) (by omega) (by omega)
        (daysInMonth_pos y m0) le_rfl]
    simp [specWindow, prevMonth, if_neg h0]


/-- C1 (amended): when the process timezone offset (`getTimezoneOffset`,
minutes, UTC − local) is in `[0, 1440)` — local time at or behind UTC —
the window passed to the record query is exactly the inclusive
`[first day, last day]` of the calendar month preceding the invocation
date in the local calendar, as ISO `YYYY-MM-DD` strings.  (For negative
offsets, i.e. local time ahead of UTC, `toISOString` shifts each bound to
the previous day; see the counterexample.) -/
theorem claim_C1 (y m0 tz : Int) (hm0 : 0 ≤ m0) (hm1 : m0 ≤ 11)
    (htz0 : 0 ≤ tz) (htz1 : tz < 1440) :
    reportWindow y m0 tz = specWindow y m0 :=
  reportWindow_eq y m0 tz hm0 hm1 htz0 htz1

theorem claim_C1_witness : reportWindow 2025 2 0 = ("2025-02-01", "2025-02-28") :=
  (claim_C1 2025 2 0 (by norm_num) (by norm_num) (by norm_num) (by norm_num)).trans
    (by decide)

/-- C1 counterexample: for invocation date 2025-03-15 in a process one hour
ahead of UTC (offset −60, e.g. West Africa Time), the query window strings
are `["2025-01-31", "2025-02-27"]`, not the claimed
`["2025-02-01", "2025-02-28"]`: the `Date`s are built at local midnight but
`toISOString` renders them in UTC. -/
theorem claim_C1_counterexample :
    reportWindow 2025 2 (-60) = ("2025-01-31", "2025-02-27")
    ∧ reportWindow 2025 2 (-60) ≠ ("2025-02-01", "2025-02-28") := by
  constructor <;> decide

theorem bump_fst (m : List (String × Nat)) (s : String) :
    (bump m s).map Prod.fst
      = if s ∈ m.map Prod.fst then m.map Prod.fst else m.map Prod.fst ++ [s] := by
  induction m with
  | nil => simp [bump]
  | cons p rest ih =>
    obtain ⟨k, v⟩ := p
    by_cases hk : k = s
    · subst hk
      simp [bump]
    · simp only [bump, if_neg hk, List.map_cons, List.mem_cons, ih]
      by_cases hs : s ∈ rest.map Prod.fst
      · rw [if_pos hs, if_pos (Or.inr hs)]
      · rw [if_neg hs, if_neg (by rintro (h | h) <;> simp_all)]
        simp

theorem bump_getCount_self (m : List (String × Nat)) (s : String) :
    getCount (bump m s) s = getCount m s + 1 := by
  induction m with
  | nil => simp [bump, getCount]
  | cons p rest ih =>
    obtain ⟨k, v⟩ := p
    by_cases hk : k = s
    · subst hk
      simp [bump, getCount]
    · simp [bump, getCount, hk, ih]

theorem bump_getCount_other (m : List (String × Nat)) (s x : String) (hx : x ≠ s) :
    getCount (bump m s) x = getCount m x := by
  induction m with
  | nil => simp [bump, getCount, Ne.symm hx]
  | cons p rest ih =>
    obtain ⟨k, v⟩ := p
    by_cases hk : k = s
    · subst hk
      have hkx : k ≠ x := fun h => hx h.symm
      simp [bump, getCount, hkx]
    · simp only [bump, if_neg hk, getCount, ih]

theorem bump_sum (m : List (String × Nat)) (s : String) :
    ((bump m s).map Prod.snd).sum = ((m.map Prod.snd).sum) + 1 := by
  induction m with
  | nil => simp [bump]
  | cons p rest ih =>
    obtain ⟨k, v⟩ := p
    by_cases hk : k = s
    · subst hk; simp [bump]; ring
    · simp [bump, if_neg hk, ih]; ring

theorem getCount_of_mem (m : List (String × Nat)) (p : String × Nat)
    (hp : p ∈ m) (hnd : (m.map Prod.fst).Nodup) : p.2 = getCount m p.1 := by
  induction m with
  | nil => cases hp
  | cons q rest ih =>
    obtain ⟨k, v⟩ := q
    simp only [List.map_cons, List.nodup_cons] at hnd
    rcases List.mem_cons.mp hp with rfl | hmem
    · simp [getCount]
    · have hk : k ≠ p.1 := by
        intro h
        exact hnd.1 (h ▸ (List.mem_map.mpr ⟨p, hmem, rfl⟩))
      simp only [getCount, if_neg hk]
      exact ih hmem hnd.2

theorem firstDedupAux_mem_iff (l : List String) :
    ∀ (seen : List String) (x : String),
      x ∈ firstDedupAux seen l ↔ (x ∈ l ∧ x ∉ seen) := by
  induction l with
  | nil => simp [firstDedupAux]
  | cons a rest ih =>
    intro seen x
    by_cases ha : a ∈ seen
    · rw [firstDedupAux, if_pos ha, ih]
      constructor
      · rintro ⟨h1, h2⟩
        exact ⟨List.mem_cons_of_mem a h1, h2⟩
      · rintro ⟨h1, h2⟩
        rcases List.mem_cons.mp h1 with rfl | h3
        · exact absurd ha h2
        · exact ⟨h3, h2⟩
    · rw [firstDedupAux, if_neg ha]
      constructor
      · intro hmem
        rcases List.mem_cons.mp hmem with rfl | h3
        · exact ⟨List.mem_cons_self x rest, ha⟩
        · obtain ⟨h4, h5⟩ := (ih (a :: seen) x).mp h3
          exact ⟨List.mem_cons_of_mem a h4, fun hc => h5 (List.mem_cons_of_mem a hc)⟩
      · rintro ⟨h1, h2⟩
        rcases List.mem_cons.mp h1 with rfl | h3
        · exact List.mem_cons_self x _
        · by_cases hxa : x = a
          · subst hxa
            exact List.mem_cons_self x _
          · refine List.mem_cons_of_mem a ((ih (a :: seen) x).mpr ⟨h3, ?_⟩)
            intro hc
            rcases List.mem_cons.mp hc with h4 | h4
            · exact hxa h4
            · exact h2 h4

theorem firstDedupAux_nodup (l : List String) :
    ∀ seen : List String, (firstDedupAux seen l).Nodup := by
  induction l with
  | nil => intro seen; simp [firstDedupAux]
  | cons a rest ih =>
    intro seen
    by_cases ha : a ∈ seen
    · rw [firstDedupAux, if_pos ha]; exact ih seen
    · rw [firstDedupAux, if_neg ha]
      refine List.nodup_cons.mpr ⟨?_, ih (a :: seen)⟩
      intro hc
      exact ((firstDedupAux_mem_iff rest (a :: seen) a).mp hc).2 (List.mem_cons_self a seen)

theorem firstDedupAux_snoc (l : List String) :
    ∀ (seen : List String) (s : String),
      firstDedupAux seen (l ++ [s])
        = firstDedupAux seen l ++ (if s ∈ seen ∨ s ∈ l then [] else [s]) := by
  induction l with
  | nil =>
    intro seen s
    by_cases hs : s ∈ seen <;> simp [firstDedupAux, hs]
  | cons a rest ih =>
    intro seen s
    rw [List.cons_append]
    by_cases ha : a ∈ seen
    · rw [firstDedupAux, if_pos ha, firstDedupAux, if_pos ha, ih]
      congr 1
      refine if_congr ?_ rfl rfl
      constructor
      · rintro (h | h)
        · exact Or.inl h
        · exact Or.inr (List.mem_cons_of_mem a h)
      · rintro (h | h)
        · exact Or.inl h
        · rcases List.mem_cons.mp h with rfl | h2
          · exact Or.inl ha
          · exact Or.inr h2
    · rw [firstDedupAux, if_neg ha, firstDedupAux, if_neg ha, ih, List.cons_append]
      congr 2
      refine if_congr ?_ rfl rfl
      simp only [List.mem_cons]
      tauto

theorem serviceCounts_snoc (rs : List Appointment) (a : Appointment) :
    serviceCounts (rs ++ [a])
      = match truthyStr a.service_name with
        | some s => bump (serviceCounts rs) s
        | none => serviceCounts rs := by
  unfold serviceCounts
  rw [List.foldl_append]
  rfl

/-- The `serviceCounts` map lists service names in first-encounter order,
and each entry holds the occurrence count of its name among the records
with a present service name. -/
theorem serviceCounts_spec (rs : List Appointment) :
    (serviceCounts rs).map Prod.fst
        = firstDedup (rs.filterMap (fun a => truthyStr a.service_name))
    ∧ (∀ x, getCount (serviceCounts rs) x
        = (rs.filterMap (fun a => truthyStr a.service_name)).count x)
    ∧ ((serviceCounts rs).map Prod.snd).sum
        = (rs.filterMap (fun a => truthyStr a.service_name)).length := by
  induction rs using List.reverseRecOn with
  | nil => refine ⟨rfl, fun x => rfl, rfl⟩
  | append_singleton rs a ih =>
    obtain ⟨ihf, ihc, ihs⟩ := ih
    rw [serviceCounts_snoc, List.filterMap_append]
    cases hname : truthyStr a.service_name with
    | none =>
      simp only [List.filterMap_cons, hname, List.filterMap_nil, List.append_nil]
      exact ⟨ihf, ihc, ihs⟩
    | some s =>
      simp only [List.filterMap_cons, hname, List.filterMap_nil]
      refine ⟨?_, ?_, ?_⟩
      · by_cases hs : s ∈ rs.filterMap (fun a => truthyStr a.service_name)
        · have hmem : s ∈ (serviceCounts rs).map Prod.fst := by
            rw [ihf]
            exact (firstDedupAux_mem_iff _ [] s).mpr ⟨hs, by simp⟩
          rw [bump_fst, if_pos hmem, ihf]
          unfold firstDedup
          rw [firstDedupAux_snoc, if_pos (Or.inr hs), List.append_nil]
        · have hmem : s ∉ (serviceCounts rs).map Prod.fst := by
            rw [ihf]
            intro hc
            exact hs ((firstDedupAux_mem_iff _ [] s).mp hc).1
          rw [bump_fst, if_neg hmem, ihf]
          unfold firstDedup
          rw [firstDedupAux_snoc, if_neg (by simp [hs])]
      · intro x
        by_cases hx : x = s
        · subst hx
          rw [bump_getCount_self, ihc, List.count_append]
          simp [List.count_singleton]
        · rw [bump_getCount_other _ _ _ hx, ihc, List.count_append]
          have : ([s].count x) = 0 := by
            simp [List.count_singleton, hx]
          omega
      · rw [bump_sum, ihs, List.length_append]
        simp

/-- Entries of `serviceCounts` carry their name's occurrence count. -/
theorem serviceCounts_entries (rs : List Appointment) (p : String × Nat)
    (hp : p ∈ serviceCounts rs) :
    p.2 = (rs.filterMap (fun a => truthyStr a.service_name)).count p.1 := by
  obtain ⟨ihf, ihc, _⟩ := serviceCounts_spec rs
  rw [← ihc p.1]
  refine getCount_of_mem _ p hp ?_
  rw [ihf]
  exact firstDedupAux_nodup _ []

theorem rankedServices_perm (rs : List Appointment) :
    (rankedServices rs).Perm (serviceCounts rs) :=
  List.perm_insertionSort rankLE (serviceCounts rs)

theorem rankedServices_sorted (rs : List Appointment) :
    (rankedServices rs).Pairwise rankLE :=
  List.sorted_insertionSort rankLE (serviceCounts rs)

theorem topServices_length (rs : List Appointment) :
    (topServices rs).length = min 5 (serviceCounts rs).length := by
  unfold topServices
  rw [List.length_take, (rankedServices_perm rs).length_eq]

theorem topServices_sorted (rs : List Appointment) :
    (topServices rs).Pairwise rankLE :=
  (rankedServices_sorted rs).sublist (List.take_sublist 5 _)

theorem topServices_mem (rs : List Appointment) (p : String × Nat)
    (hp : p ∈ topServices rs) : p ∈ serviceCounts rs :=
  (rankedServices_perm rs).mem_iff.mp (List.mem_of_mem_take hp)

theorem topServices_maximal (rs : List Appointment) (p : String × Nat)
    (hp : p ∈ serviceCounts rs) (hnp : p ∉ topServices rs)
    (q : String × Nat) (hq : q ∈ topServices rs) : p.2 ≤ q.2 := by
  have hpr : p ∈ rankedServices rs := (rankedServices_perm rs).mem_iff.mpr hp
  have hsplit : rankedServices rs = topServices rs ++ (rankedServices rs).drop 5 :=
    (List.take_append_drop 5 (rankedServices rs)).symm
  have hpd : p ∈ (rankedServices rs).drop 5 := by
    rw [hsplit] at hpr
    rcases List.mem_append.mp hpr with h | h
    · exact absurd h hnp
    · exact h
  have hpw := rankedServices_sorted rs
  rw [hsplit] at hpw
  exact (List.pairwise_append.mp hpw).2.2 q hq p hpd

theorem topServices_stable (rs : List Appointment) (a b : String × Nat)
    (hab : [a, b].Sublist (serviceCounts rs)) (hle : b.2 ≤ a.2) :
    [a, b].Sublist (rankedServices rs) :=
  List.pair_sublist_insertionSort hle hab

theorem foldl_jsAdd_some (l : List Appointment) :
    ∀ acc : ℚ, (∀ a ∈ l, amountValue a.final_price ≠ none) →
      l.foldl (fun acc2 a => jsAdd acc2 (amountValue a.final_price)) (some acc)
        = some (acc + (l.map (fun a => (amountValue a.final_price).getD 0)).sum) := by
  induction l with
  | nil => intro acc _; simp
  | cons a rest ih =>
    intro acc h
    obtain ⟨v, hv⟩ := Option.ne_none_iff_exists.mp (h a (List.mem_cons_self a rest))
    rw [List.foldl_cons, show jsAdd (some acc) (amountValue a.final_price) = some (acc + v) by
      rw [← hv]; rfl,
      ih (acc + v) (fun x hx => h x (List.mem_cons_of_mem a hx))]
    rw [List.map_cons, List.sum_cons, ← hv]
    simp [add_assoc]

theorem foldl_jsAdd_start_none (l : List Appointment) :
    l.foldl (fun acc2 a => jsAdd acc2 (amountValue a.final_price)) none = none := by
  induction l with
  | nil => rfl
  | cons a rest ih =>
    rw [List.foldl_cons, show jsAdd none (amountValue a.final_price) = none from rfl, ih]

theorem foldl_jsAdd_none (l : List Appointment)
    (h : ∃ a ∈ l, amountValue a.final_price = none) :
    ∀ acc : Option ℚ,
      l.foldl (fun acc2 a => jsAdd acc2 (amountValue a.final_price)) acc = none := by
  induction l with
  | nil => simp at h
  | cons a rest ih =>
    intro acc
    obtain ⟨x, hx, hxn⟩ := h
    rcases List.mem_cons.mp hx with rfl | hmem
    · rw [List.foldl_cons, show jsAdd acc (amountValue x.final_price) = none by
        rw [hxn]; cases acc <;> rfl]
      exact foldl_jsAdd_start_none rest
    · rw [List.foldl_cons]
      exact ih ⟨x, hmem, hxn⟩ _

theorem foldl_append_eq_flatMap (f : Business → List MonthlyReportData)
    (l : List Business) :
    ∀ acc : List MonthlyReportData,
      l.foldl (fun a b => a ++ f b) acc = acc ++ l.flatMap f := by
  induction l with
  | nil => intro acc; simp
  | cons b rest ih =>
    intro acc
    rw [List.foldl_cons, ih, List.flatMap_cons, List.append_assoc]

theorem filterMap_truthy (l : List (Option String)) :
    l.filterMap truthyStr = (l.filterMap id).filter (fun s => !(s == "")) := by
  induction l with
  | nil => rfl
  | cons o rest ih =>
    cases o with
    | none => simpa [truthyStr] using ih
    | some s =>
      by_cases hs : s = ""
      · subst hs
        simpa [truthyStr] using ih
      · simp [truthyStr, hs, ih, List.filter_cons]

/-- C3: for a tenant whose record retrieval succeeds, exactly one email
dispatch is attempted iff the record count is positive and the contact
address (`business.email || ""`) is non-empty; otherwise no dispatch is
attempted and the tenant is not treated as an error. -/
theorem claim_C3 (fetched : Except String (List Appointment))
    (send : MonthlyReportData → Except String Unit) (b : Business)
    (appts : List Appointment) (h : fetched = Except.ok appts) :
    ((processTenant fetched send b).1.length
        = if 0 < appts.length ∧ jsOrString b.email "" ≠ "" then 1 else 0)
    ∧ (¬(0 < appts.length ∧ jsOrString b.email "" ≠ "") →
        processTenant fetched send b = ([], false)) := by
  subst h
  simp only [processTenant, buildReport]
  constructor
  · split_ifs with hc
    · cases send _ <;> rfl
    · rfl
  · intro hc
    rw [if_neg hc]

/-- C4: the run returns 500 with body `{ error }` exactly when the
active-tenant-list retrieval fails (the only throw site outside the
per-tenant loop), in which case no tenant is processed; otherwise it
returns 200 with body `{ success: true, message }`. -/
theorem claim_C4 (env : Env) :
    (∀ e, ((handler env).status = 500 ∧ (handler env).body = RespBody.error e)
        ↔ env.businessesError = some e)
    ∧ (env.businessesError = none →
        (handler env).status = 200
        ∧ (handler env).body = RespBody.success "Monthly reports sent successfully")
    ∧ (∀ e, env.businessesError = some e → (handler env).sent = []) := by
  cases hE : env.businessesError with
  | none =>
    refine ⟨fun e => ?_, fun _ => by simp [handler, hE], fun e he => by simp [hE] at he⟩
    simp [handler, hE]
  | some e0 =>
    refine ⟨fun e => ?_, fun h => by simp [hE] at h, fun e he => by simp [handler, hE]⟩
    simp only [handler, hE]
    constructor
    · rintro ⟨_, h2⟩
      cases h2
      rfl
    · intro h
      injection h with h
      subst h
      simp

/-- C2: for every run whose tenant list loads, the handler answers 200 and
its dispatch list is the concatenation, in order, of each tenant's own
attempts — each computed by `processTenant` from that tenant's own fetch
result alone — so a per-tenant failure (fetch error or send exception,
both absorbed inside `processTenant`) never prevents a later tenant from
being processed and emailed, and never fails the run. -/
theorem claim_C2 (env : Env) (bs : List Business)
    (hE : env.businessesError = none) (hD : env.businessesData = some bs) :
    (handler env).status = 200
    ∧ (handler env).body = RespBody.success "Monthly reports sent successfully"
    ∧ (handler env).sent = bs.flatMap (fun b =>
        (processTenant
          (env.fetchAppointments b.id
            (reportWindow env.nowYear env.nowMonth env.tzOffset).1
            (reportWindow env.nowYear env.nowMonth env.tzOffset).2)
          env.sendEmail b).1) := by
  refine ⟨by simp [handler, hE], by simp [handler, hE], ?_⟩
  simp only [handler, hE, hD, Option.getD_some]
  rw [foldl_append_eq_flatMap (fun b => (processBusiness env b).1) bs []]
  rw [List.nil_append]
  rfl

/-- C6 (amended): when every completed record's amount coerces to a number
(missing and empty treated as zero), the revenue is the sum of the coerced
amounts over completed records — non-completed records contribute nothing;
but when any completed record's amount fails to parse, the NaN poisons the
whole sum and the trailing `|| 0` turns the revenue into 0. -/
theorem claim_C6 (rs : List Appointment) :
    ((∀ a ∈ rs, a.status = "completed" → amountValue a.final_price ≠ none) →
      totalRevenue rs = specRevenue rs)
    ∧ ((∃ a ∈ rs, a.status = "completed" ∧ amountValue a.final_price = none) →
      totalRevenue rs = 0) := by
  constructor
  · intro h
    unfold totalRevenue specRevenue
    rw [foldl_jsAdd_some _ 0 (fun a ha => h a (List.mem_filter.mp ha).1
      (by simpa using (List.mem_filter.mp ha).2))]
    simp
  · rintro ⟨a, ha, hst, hn⟩
    unfold totalRevenue
    rw [foldl_jsAdd_none _ ⟨a, List.mem_filter.mpr ⟨ha, by simp [hst]⟩, hn⟩]

/-- C8 (amended): the customer count is the number of distinct customer
references after excluding records whose reference is null/missing or the
empty string (JS `filter(Boolean)` drops falsy values, so `""` is also
dropped). -/
theorem claim_C8 (rs : List Appointment) :
    newCustomers rs
      = (firstDedup ((rs.filterMap (fun a => a.customer_id)).filter
          (fun s => !(s == "")))).length
    ∧ (firstDedup ((rs.filterMap (fun a => a.customer_id)).filter
          (fun s => !(s == "")))).Nodup
    ∧ (∀ x, x ∈ firstDedup ((rs.filterMap (fun a => a.customer_id)).filter
          (fun s => !(s == "")))
        ↔ x ∈ (rs.filterMap (fun a => a.customer_id)).filter (fun s => !(s == ""))) := by
  refine ⟨?_, firstDedupAux_nodup _ [], fun x => ?_⟩
  · unfold newCustomers
    have hmapf : (rs.map (fun a => a.customer_id)).filterMap id
        = rs.filterMap (fun a => a.customer_id) := by
      rw [List.filterMap_map]
      rfl
    rw [filterMap_truthy, hmapf]
  · rw [show firstDedup _ = firstDedupAux [] _ from rfl, firstDedupAux_mem_iff]
    simp

/-- C9: a missing or empty stored currency falls back to `"NGN"`; any other
stored currency is used unchanged. -/
theorem claim_C9 (b : Business) (appts : List Appointment) :
    ((b.currency = none ∨ b.currency = some "") → (buildReport b appts).currency = "NGN")
    ∧ (∀ cur, b.currency = some cur → cur ≠ "" → (buildReport b appts).currency = cur) := by
  constructor
  · rintro (h | h) <;> simp [buildReport, jsOrString, h]
  · intro cur h hne
    simp [buildReport, jsOrString, h, hne]

theorem round_tenths_close (x : ℚ) :
    |x - (⌊x * 10 + 1 / 2⌋ : ℚ) / 10| ≤ 1 / 20 := by
  have h1 := Int.floor_le (x * 10 + 1 / 2)
  have h2 := Int.lt_floor_add_one (x * 10 + 1 / 2)
  rw [abs_le]
  constructor <;> linarith

/-- C7: for a report with positive record total, the rendered completion
rate is `completed/total × 100` rounded to one decimal place (the rendered
tenth-integer is within 1/20 of the exact rate); for total = 0 it is the
string `"0"`. -/
theorem claim_C7 (d : MonthlyReportData) :
    (0 < d.totalAppointments →
      completionRate d
        = renderTenths
            ⌊(d.completedAppointments : ℚ) / (d.totalAppointments : ℚ) * 100 * 10 + 1 / 2⌋
      ∧ |(d.completedAppointments : ℚ) / (d.totalAppointments : ℚ) * 100
          - (⌊(d.completedAppointments : ℚ) / (d.totalAppointments : ℚ) * 100 * 10 + 1 / 2⌋ : ℚ)
            / 10| ≤ 1 / 20)
    ∧ (d.totalAppointments = 0 → completionRate d = "0") := by
  constructor
  · intro h
    refine ⟨?_, round_tenths_close _⟩
    unfold completionRate toFixed1 renderTenths
    rw [if_pos h]
  · intro h
    unfold completionRate
    rw [if_neg (by omega)]

/-- C5: the top-services ranking is the 5-prefix of the stable descending
sort of the service-count map: its length is `min 5` the number of distinct
present service names, it is sorted by descending count, every entry is a
map entry carrying its name's occurrence count, every omitted entry counts
no more than every kept one, ties keep the map order, and the map lists
names in first-encounter order. -/
theorem claim_C5 (rs : List Appointment) :
    topServices rs = (rankedServices rs).take 5
    ∧ (topServices rs).length = min 5 (serviceCounts rs).length
    ∧ (topServices rs).Pairwise rankLE
    ∧ (∀ p ∈ topServices rs, p ∈ serviceCounts rs
        ∧ p.2 = (rs.filterMap (fun a => truthyStr a.service_name)).count p.1)
    ∧ (∀ p ∈ serviceCounts rs, p ∉ topServices rs → ∀ q ∈ topServices rs, p.2 ≤ q.2)
    ∧ (∀ a b, [a, b].Sublist (serviceCounts rs) → b.2 ≤ a.2 →
        [a, b].Sublist (rankedServices rs))
    ∧ (serviceCounts rs).map Prod.fst
        = firstDedup (rs.filterMap (fun a => truthyStr a.service_name)) := by
  refine ⟨rfl, topServices_length rs, topServices_sorted rs, ?_, topServices_maximal rs,
    topServices_stable rs, (serviceCounts_spec rs).1⟩
  intro p hp
  exact ⟨topServices_mem rs p hp, serviceCounts_entries rs p (topServices_mem rs p hp)⟩

/-- C10: records without a present (non-null, non-empty) joined service
name are excluded from service-frequency counting: the counts in the full
map sum to the number of name-bearing records (at most the record total),
every ranked count is the occurrence count among name-bearing records, and
there are inputs where the ranked counts sum to strictly less than the
record total. -/
theorem claim_C10 :
    (∀ rs : List Appointment,
      ((serviceCounts rs).map Prod.snd).sum
          = (rs.filterMap (fun a => truthyStr a.service_name)).length
      ∧ (rs.filterMap (fun a => truthyStr a.service_name)).length ≤ rs.length
      ∧ ((topServices rs).map Prod.snd).sum ≤ ((serviceCounts rs).map Prod.snd).sum
      ∧ ∀ p ∈ topServices rs,
          p.2 = (rs.filterMap (fun a => truthyStr a.service_name)).count p.1)
    ∧ (∃ rs : List Appointment, ((topServices rs).map Prod.snd).sum < rs.length) := by
  constructor
  · intro rs
    refine ⟨(serviceCounts_spec rs).2.2, List.length_filterMap_le _ _, ?_,
      fun p hp => serviceCounts_entries rs p (topServices_mem rs p hp)⟩
    calc ((topServices rs).map Prod.snd).sum
        ≤ ((topServices rs).map Prod.snd).sum
            + (((rankedServices rs).drop 5).map Prod.snd).sum := Nat.le_add_right _ _
      _ = ((rankedServices rs).map Prod.snd).sum := by
          conv_rhs => rw [← List.take_append_drop 5 (rankedServices rs)]
          rw [List.map_append, List.sum_append]
          rfl
      _ = ((serviceCounts rs).map Prod.snd).sum :=
          ((rankedServices_perm rs).map Prod.snd).sum_eq
  · exact ⟨[⟨"a1", "completed", none, none, none, none⟩], by decide⟩

theorem claim_C2_witness :
    (handler wEnv).status = 200
    ∧ (handler wEnv).sent = [buildReport wBusinessY [wAppt]] := by
  have h := claim_C2 wEnv [wBusinessX, wBusinessY] rfl rfl
  refine ⟨h.1, ?_⟩
  rw [h.2.2]
  rfl

theorem claim_C3_witness :
    (processTenant (Except.ok [wAppt]) (fun _ => Except.ok ()) wBusinessY).1.length = 1 :=
  ((claim_C3 (Except.ok [wAppt]) (fun _ => Except.ok ()) wBusinessY [wAppt] rfl).1).trans
    (by decide)

theorem claim_C4_witness :
    (handler wEnvErr).status = 500 ∧ (handler wEnvErr).body = RespBody.error "db down" :=
  ((claim_C4 wEnvErr).1 "db down").mpr rfl

theorem claim_C5_witness :
    topServices wServiceRecords = [("B", 5), ("C", 5), ("A", 3), ("D", 1)]
    ∧ (topServices wServiceRecords).Pairwise rankLE :=
  ⟨by decide, (claim_C5 wServiceRecords).2.2.1⟩

theorem claim_C6_counterexample :
    totalRevenue wBadPriceRecords = 0 ∧ specRevenue wBadPriceRecords = 10
    ∧ totalRevenue wBadPriceRecords ≠ specRevenue wBadPriceRecords := by
  have habc : amountValue (some (JVal.str "abc")) = none := rfl
  have h0 : totalRevenue wBadPriceRecords = 0 := rfl
  have h10 : specRevenue wBadPriceRecords = 10 := by
    simp [specRevenue, wBadPriceRecords, amountValue,
      show jsParseFloat "abc" = none from rfl]
  refine ⟨h0, h10, ?_⟩
  rw [h0, h10]
  norm_num

theorem claim_C6_witness : totalRevenue wRevenueRecords = 10 := by
  have h := (claim_C6 wRevenueRecords).1 (by decide)
  rw [h]
  simp [specRevenue, wRevenueRecords, amountValue]

theorem claim_C7_witness : completionRate wReport = "75.0" := by
  have h := ((claim_C7 wReport).1 (by decide)).1
  rw [h]
  show renderTenths ⌊((3 : ℕ) : ℚ) / ((4 : ℕ) : ℚ) * 100 * 10 + 1 / 2⌋ = "75.0"
  have hfl : ⌊((3 : ℕ) : ℚ) / ((4 : ℕ) : ℚ) * 100 * 10 + 1 / 2⌋ = (750 : ℤ) := by
    norm_num
  rw [hfl]
  rfl

theorem claim_C8_counterexample :
    newCustomers wEmptyCustomerRecords = 0
    ∧ specCustomerCount wEmptyCustomerRecords = 1
    ∧ newCustomers wEmptyCustomerRecords ≠ specCustomerCount wEmptyCustomerRecords := by
  refine ⟨by decide, by decide, by decide⟩

theorem claim_C8_witness : newCustomers wCustomerRecords = 2 :=
  ((claim_C8 wCustomerRecords).1).trans (by decide)

theorem claim_C9_witness :
    (buildReport wBusinessY []).currency = "NGN"
    ∧ (buildReport wBusinessX []).currency = "USD" :=
  ⟨(claim_C9 wBusinessY []).1 (Or.inl rfl),
   (claim_C9 wBusinessX []).2 "USD" rfl (by decide)⟩

theorem claim_C10_witness :
    ((serviceCounts wServiceRecords).map Prod.snd).sum
      = (wServiceRecords.filterMap (fun a => truthyStr a.service_name)).length :=
  ((claim_C10).1 wServiceRecords).1

end MonthlyReport
